import Mathlib

/-!
Shallow embedding of the `deno_vm` bridge (`deno_vm/__init__.py`):
permission validation and launch-flag construction (`VMServer.start`),
the request/response correlator (`VMServer.communicate`, `reader`),
bridge close (`VMServer.close`), session-level dispatch
(`BaseVM.communicate`, `BaseVM.destroy`), and the reader loop's event
demultiplexing.  Machine-level concerns (threads, pipes) are modelled by
explicit state passing: the poll table is an association list, blocking
waits become reads of the stored response after the signal flag is set,
and the child's emissions are an explicit list processed in order.
-/

namespace DenoVM

/-- Python values as far as the bridge inspects them: strings, booleans,
integers, lists and `None`.  Used for permission-config values and for
JSON payloads. -/
inductive PyVal where
  | str (s : String)
  | bool (b : Bool)
  | int (n : Int)
  | list (xs : List PyVal)
  | none

/-- Rendering of Python's `type(v)` for the f-string in the permission
error message (`f"... {type(perm_value)} ..."`). -/
def typeName : PyVal → String
  | .str _ => "<class \x27str\x27>"
  | .bool _ => "<class \x27bool\x27>"
  | .int _ => "<class \x27int\x27>"
  | .list _ => "<class \x27list\x27>"
  | .none => "<class \x27NoneType\x27>"

/-- Python `isinstance(v, str)`. -/
def isStr : PyVal → Bool
  | .str _ => true
  | _ => false

/-- Python `isinstance(v, list)`. -/
def isListVal : PyVal → Bool
  | .list _ => true
  | _ => false

/-- The fixed `PERMISSION_TYPES` list from `VMServer.start`. -/
def PERMISSION_TYPES : List String :=
  ["read", "write", "net", "env", "sys", "run", "ffi", "import"]

/-- The validation loop of `VMServer.start`: iterate over the permission
mapping in insertion order; raise `VMError` on the first value that is
not a list, or the first list holding a non-string element.  The mapping
is an association list because Python dicts iterate in insertion order. -/
def validatePermissions : List (String × PyVal) → Except String Unit
  | [] => Except.ok ()
  | (k, v) :: rest =>
    match v with
    | .list xs =>
      if xs.all isStr then validatePermissions rest
      else Except.error ("List values must be strings for " ++ k ++ ".")
    | other =>
      Except.error ("Invalid value type for " ++ k ++ ": " ++ typeName other ++
        ". It should be a list of strings")

/-- Python `k in perms` for a dict modelled as an association list. -/
def containsKey (perms : List (String × PyVal)) (k : String) : Bool :=
  perms.any fun p => p.1 == k

/-- Python `perms[k]`; only evaluated under a `containsKey` guard in the
source, so the missing-key case (Python `KeyError`) is unreachable there
and mapped to an arbitrary value. -/
def dictGet (perms : List (String × PyVal)) (k : String) : PyVal :=
  match perms.lookup k with
  | some v => v
  | Option.none => PyVal.list []

/-- Python `str(v)` restricted to strings; `",".join` is only applied to
lists that passed validation, whose elements are all strings. -/
def strOf : PyVal → String
  | .str s => s
  | _ => ""

/-- Python `",".join(v)` for a validated permission value. -/
def pyJoinComma : PyVal → String
  | .list xs => String.intercalate "," (xs.map strOf)
  | _ => ""

/-- The `cli_permissions` comprehension of `VMServer.start`: one
`--allow-<category>=<comma-joined scopes>` flag per `PERMISSION_TYPES`
entry present in the mapping, in the fixed category order. -/
def cliPermissions (perms : List (String × PyVal)) : List String :=
  (PERMISSION_TYPES.filter fun p => containsKey perms p).map
    fun p => "--allow-" ++ p ++ "=" ++ pyJoinComma (dictGet perms p)

/-- A response line from the child: `{"type": "response", "id": ...,
"status": ..., "value": ..., "error": ...}`. -/
structure Response where
  id : Nat
  status : String
  value : Option PyVal
  error : Option String

/-- One `self.poll[id]` entry: the pair `[event, data]` made of the
threading event (modelled by its set flag) and the stored response. -/
structure PendingCall where
  signal : Bool
  response : Option Response

/-- The `VMServer` state touched by the correlator: `self.closed`
(`None` before `start`, `False` after, `True` once closed), the id
counter `self.inc`, and the pending table `self.poll`. -/
structure VMServer where
  closed : Option Bool
  inc : Nat
  poll : List (Nat × PendingCall)

/-- State of a fresh `VMServer.__init__`: `closed = None`, `inc = 1`,
empty poll table. -/
def VMServer.init : VMServer :=
  { closed := Option.none, inc := 1, poll := [] }

/-- The `generate_id` method: return `self.inc` and increment it. -/
def VMServer.generate_id (s : VMServer) : Nat × VMServer :=
  (s.inc, { s with inc := s.inc + 1 })

/-- The id-stamping half of `communicate`: allocate an id with
`generate_id` and insert `self.poll[id] = [Event(), None]`. -/
def VMServer.registerCall (s : VMServer) : Nat × VMServer :=
  let p := s.generate_id
  (p.1, { p.2 with poll := p.2.poll ++ [(p.1, ⟨false, Option.none⟩)] })

/-- The reader's response branch applied to the poll entries:
`self.poll[data["id"]][1] = data; self.poll[data["id"]][0].set()`.
A Python dict assignment touches exactly the entry with that key; an
absent key would raise `KeyError`, which never happens because every
response id was stamped by `registerCall` first, so the map leaves
non-matching entries alone. -/
def pollSetEntries (l : List (Nat × PendingCall)) (r : Response) :
    List (Nat × PendingCall) :=
  l.map fun p => if p.1 == r.id then (p.1, ⟨true, some r⟩) else p

/-- Deliver one response to the poll table (reader thread, under
`poll_lock`). -/
def VMServer.deliver (s : VMServer) (r : Response) : VMServer :=
  { s with poll := pollSetEntries s.poll r }

/-- The reader thread consuming a list of response lines in the order
the child emitted them. -/
def runReader (s : VMServer) (rs : List Response) : VMServer :=
  rs.foldl VMServer.deliver s

/-- What a caller blocked in `communicate` reads after its event fires:
`self.poll[id][1]`.  `None` when the bridge closed before a response was
stored. -/
def VMServer.communicateResult (s : VMServer) (id : Nat) : Option Response :=
  (s.poll.lookup id).bind fun pc => pc.response

/-- The tail of `communicate`: read `self.poll[id][1]`, then
`del self.poll[id]`, and return the read value. -/
def VMServer.finishCall (s : VMServer) (id : Nat) :
    Option Response × VMServer :=
  (s.communicateResult id,
   { s with poll := s.poll.filter fun p => !(p.1 == id) })

/-- The wake-up loop of `close`: `for event, _data in self.poll.values():
event.set()` — every pending event is set, stored responses untouched. -/
def wakeAll (l : List (Nat × PendingCall)) : List (Nat × PendingCall) :=
  l.map fun p => (p.1, ⟨true, p.2.response⟩)

/-- The `close` method as it runs to completion from a caller thread
other than the reader.  Returns the new state together with the list of
shutdown requests written to the child.  `if self.closed: return self`
short-circuits with nothing written.  Otherwise close's own
`communicate({"action": "close"})` round trip is taken as completing the
way it does in that setting: the request is written, the reader — alive
on its own thread — delivers the child's close response, and the waiter
consumes and removes that entry before the wake-all loop runs, so the
table is left exactly as the other callers had it; the child's
`vm-server` acknowledges `close` with success status, so the
`status == "error"` raise is not taken.  Then the process is awaited,
`closed` is set, and every still-pending waiter is woken with its stored
response untouched.  A `close()` invoked from the reader thread itself
cannot complete this way while the child lives — that path is modelled
separately by `closeFromReader` below. -/
def VMServer.close (s : VMServer) : VMServer × List String :=
  if s.closed = some true then (s, [])
  else ({ s with closed := some true, poll := wakeAll s.poll }, ["close"])

/-- The `close` method when writing the `close` request to the child
raises `OSError` because the child process is already dead:
`communicate` has registered the close request's own pending entry
(`self.poll[id] = [Event(), None]`) before the failed write, the
exception propagates out of `communicate` and is swallowed by close's
`except OSError: pass`, so that entry is never consumed and stays in the
table; then the process is awaited, `closed` is set, and the wake-all
loop sets every event — the leaked close entry's included.  Nothing is
written to the child. -/
def VMServer.closeAfterWriteFail (s : VMServer) : VMServer :=
  let p := s.registerCall
  { p.2 with closed := some true, poll := wakeAll p.2.poll }

/-- Python exceptions distinguished by the session layer. -/
inductive PyErr where
  | vmError (msg : String)
  | typeError (msg : String)
  | keyError (key : String)

/-- Whether a result surfaced as the bridge's own error class
(`VMError`). -/
def isVMErr : Except PyErr (Option PyVal) → Bool
  | .error (.vmError _) => true
  | _ => false

/-- The response handling of `BaseVM.communicate` applied to what the
bridge returned: subscripting `None` raises `TypeError`; a non-success
status raises `VMError(data["error"])` (`KeyError` if the error field is
missing); otherwise `data.get("value")` is returned. -/
def handleResponse : Option Response → Except PyErr (Option PyVal)
  | Option.none =>
    Except.error (.typeError "\x27NoneType\x27 object is not subscriptable")
  | some r =>
    if r.status == "success" then Except.ok r.value
    else
      match r.error with
      | some e => Except.error (.vmError e)
      | Option.none => Except.error (.keyError "error")

/-- An event line from the child: `{"type": "event", "vmId": ...,
"name": ..., "value": ...}`; `value` is read with `data.get`. -/
structure EventMsg where
  vmId : Nat
  name : String
  value : Option String

/-- The `BaseVM` fields used by `communicate` and the reader:
`self.id`, `self.console`, `self.event_que`. -/
structure BaseVM where
  id : Option Nat
  console : String
  event_que : List EventMsg

/-- The `destroy` method's effect on the handle: `self.id = None`
(after the `destroy` request and registry removal). -/
def BaseVM.destroy (vm : BaseVM) : BaseVM :=
  { vm with id := Option.none }

/-- The `BaseVM.communicate` method.  `bridge` abstracts
`self.bridge.communicate` as a function from the action and stamped
`vmId` to the bridge's returned value (`None` when the bridge closed
while waiting).  The second component records the requests actually
forwarded to the bridge, so "fails before any request is written" is
the trace being empty. -/
def BaseVM.communicate (vm : BaseVM) (action : String)
    (bridge : String → Option Nat → Option Response) :
    Except PyErr (Option PyVal) × List (String × Option Nat) :=
  if vm.id = Option.none ∧ action ≠ "create" then
    (Except.error (.vmError "VM is not created yet."), [])
  else
    (handleResponse (bridge action vm.id), [(action, vm.id)])

/-- The full bridge state seen by the reader thread: the correlator
state, the `self.vms` registry (id → handle), and the bytes written so
far to the Python process's stdout and stderr. -/
structure Bridge where
  server : VMServer
  vms : List (Nat × BaseVM)
  stdoutData : String
  stderrData : String

/-- Append an event to the queue of the registered handle with the given
id (`vm.event_que.put(data)`). -/
def putEvent (vms : List (Nat × BaseVM)) (id : Nat) (e : EventMsg) :
    List (Nat × BaseVM) :=
  vms.map fun p =>
    if p.1 == id then (p.1, { p.2 with event_que := p.2.event_que ++ [e] })
    else p

/-- The reader's event branch: look up `self.vms[data["vmId"]]`
(`KeyError` → the vm is destroyed → `continue`), then dispatch on
`data["name"]` and `vm.console`. -/
def dispatchEvent (b : Bridge) (e : EventMsg) : Bridge :=
  match b.vms.lookup e.vmId with
  | Option.none => b
  | some vm =>
    if e.name == "console.log" then
      if vm.console == "redirect" then
        { b with vms := putEvent b.vms e.vmId e }
      else if vm.console == "inherit" then
        { b with stdoutData := b.stdoutData ++ (e.value.getD "") ++ "\n" }
      else b
    else if e.name == "console.error" then
      if vm.console == "redirect" then
        { b with vms := putEvent b.vms e.vmId e }
      else if vm.console == "inherit" then
        { b with stderrData := b.stderrData ++ (e.value.getD "") ++ "\n" }
      else b
    else b

/-- A successfully parsed line, discriminated on `data["type"]`. -/
inductive Msg where
  | response (r : Response)
  | event (e : EventMsg)
  | other

/-- One raw line of child stdout: either it parses as JSON or
`json.loads` raises `JSONDecodeError`. -/
inductive Line where
  | malformed (raw : String)
  | parsed (m : Msg)

/-- Processing of one parsed message by the reader. -/
def readerStep (b : Bridge) : Msg → Bridge
  | .response r => { b with server := b.server.deliver r }
  | .event e => dispatchEvent b e
  | .other => b

/-- How the reader thread's invocation of `self.close()` ends:
either `close()` returns and the reader thread exits, or the reader
remains blocked forever inside `close()`. -/
inductive ReaderCloseResult where
  | returned (s : VMServer)
  | blocked (s : VMServer)

/-- The reader thread calling `self.close()` on a malformed line,
parameterized by whether the child process is already dead.  If the
bridge is already closed, the short-circuit returns at once.  Otherwise
close's `communicate({"action": "close"})` registers its own pending
entry and writes the request to the child's stdin.  With a dead child
the write raises `OSError`, which `close` swallows, and the call
completes (`closeAfterWriteFail`).  With a live child the write
succeeds and `communicate` blocks in `event.wait()` on the close
response — an event only the reader loop's response branch could set,
and the reader is the thread sitting in this very call — so the reader
deadlocks inside `close()`: `closed` is never set and no waiter is
woken. -/
def VMServer.closeFromReader (s : VMServer) (childDead : Bool) :
    ReaderCloseResult :=
  if s.closed = some true then .returned s
  else if childDead then .returned s.closeAfterWriteFail
  else .blocked (s.registerCall).2

/-- How the reader loop itself ends: the stream ran out (the `for` loop
ended and the thread returned, no close attempted), or a malformed line
made the reader call `close()` and that call returned, or the reader is
stuck forever inside `close()`. -/
inductive ReaderExit where
  | eof (b : Bridge)
  | closeReturned (b : Bridge)
  | stuckInClose (b : Bridge)

/-- The reader loop (`for data in self.process.stdout:`): the input list
is the sequence of lines the child's stdout yields before it closes,
and `childDead` says whether the child is dead by the time a malformed
line is hit.  A malformed line triggers `self.close(); return` — and
once the reader enters `close()` it reads no further line, so a close
response the live child might still print sits unread in the pipe;
exhausting the stream (EOF) just ends the `for` loop and the thread
returns without any close. -/
def readerLoop (childDead : Bool) (b : Bridge) : List Line → ReaderExit
  | [] => .eof b
  | .malformed _ :: _ =>
    match b.server.closeFromReader childDead with
    | .returned s => .closeReturned { b with server := s }
    | .blocked s => .stuckInClose { b with server := s }
  | .parsed m :: rest => readerLoop childDead (readerStep b m) rest

/-- Ids stamped by `n` successive calls of the id-stamping half of
`communicate` on one server, in call order. -/
def stampSeq : VMServer → Nat → List Nat × VMServer
  | s, 0 => ([], s)
  | s, n + 1 =>
    let p := s.registerCall
    let q := stampSeq p.2 n
    (p.1 :: q.1, q.2)

/-- A started server with two calls pending and no responses stored. -/
def sPend : VMServer :=
  { closed := some false, inc := 3,
    poll := [(1, ⟨false, Option.none⟩), (2, ⟨false, Option.none⟩)] }

/-- A server that has already been closed. -/
def sClosedEx : VMServer :=
  { closed := some true, inc := 4, poll := [] }

/-- The response the child eventually emits for request 1. -/
def r1Ex : Response :=
  { id := 1, status := "success", value := some (PyVal.str "a"),
    error := Option.none }

/-- The response the child eventually emits for request 2. -/
def r2Ex : Response :=
  { id := 2, status := "success", value := some (PyVal.str "b"),
    error := Option.none }

/-- The child's emission order: response 2 before response 1. -/
def rsEx : List Response := [r2Ex, r1Ex]

/-- A bridge whose server is started and not closed, with one session in
`redirect` mode registered under id 5. -/
def bEx : Bridge :=
  { server := sPend,
    vms := [(5, { id := some 5, console := "redirect", event_que := [] })],
    stdoutData := "", stderrData := "" }

/-- A console event for session 5. -/
def evEx : EventMsg :=
  { vmId := 5, name := "console.log", value := some "Hello" }

/-- A permission mapping holding one unknown and one known category,
both valid lists of strings. -/
def permsUnknownEx : List (String × PyVal) :=
  [("foo", PyVal.list [PyVal.str "x"]),
   ("net", PyVal.list [PyVal.str "example.com:443"])]

/-- A valid permission mapping granting two net scopes. -/
def permsNetEx : List (String × PyVal) :=
  [("net", PyVal.list [PyVal.str "a.com", PyVal.str "b.com"])]

/-- Unfolding of an association-list lookup at a cons cell, with a
propositional guard. -/
theorem lookup_cons_eq_if {κ α : Type} [BEq κ] [LawfulBEq κ] [DecidableEq κ]
    (id k : κ) (v : α) (t : List (κ × α)) :
    List.lookup id ((k, v) :: t) = if id = k then some v else List.lookup id t := by
  cases h : (id == k)
  · simp [List.lookup, h, ne_of_beq_false h]
  · simp [List.lookup, h, eq_of_beq h]

/-- Delivering a response rewrites exactly its own poll slot: the slot
keyed by the response id becomes signalled with the response stored, and
every other slot is untouched. -/
theorem lookup_pollSetEntries (l : List (Nat × PendingCall)) (r : Response)
    (id : Nat) :
    (pollSetEntries l r).lookup id =
      if id = r.id then
        (l.lookup id).map fun _ => (⟨true, some r⟩ : PendingCall)
      else l.lookup id := by
  induction l with
  | nil => simp [pollSetEntries]
  | cons a t ih =>
    obtain ⟨k, pc⟩ := a
    have hhead : (if (k == r.id) = true then (k, (⟨true, some r⟩ : PendingCall))
        else (k, pc)) = (k, if k = r.id then ⟨true, some r⟩ else pc) := by
      by_cases hk : k = r.id <;> simp [hk]
    simp only [pollSetEntries, List.map_cons] at *
    rw [hhead, lookup_cons_eq_if, lookup_cons_eq_if, ih]
    by_cases hid : id = k
    · subst hid
      by_cases hk : id = r.id <;> simp [hk]
    · simp [hid]

/-- A sequence of responses none of which bears the given id leaves that
poll slot untouched. -/
theorem runReader_lookup_of_filter_nil (s : VMServer) (rs : List Response)
    (id : Nat) (h : rs.filter (fun x => x.id == id) = []) :
    (runReader s rs).poll.lookup id = s.poll.lookup id := by
  induction rs generalizing s with
  | nil => rfl
  | cons r rest ih =>
    rw [List.filter_cons] at h
    by_cases hr : (r.id == id) = true
    · simp [hr] at h
    · simp only [hr, Bool.false_eq_true, if_false] at h
      have hne : ¬id = r.id := fun he => hr (by simp [he])
      have : (runReader (s.deliver r) rest).poll.lookup id =
          (s.deliver r).poll.lookup id := ih _ h
      calc (runReader s (r :: rest)).poll.lookup id
          = (runReader (s.deliver r) rest).poll.lookup id := rfl
        _ = (s.deliver r).poll.lookup id := this
        _ = s.poll.lookup id := by
            show (pollSetEntries s.poll r).lookup id = _
            rw [lookup_pollSetEntries, if_neg hne]

/-- Core correlation fact: if a call with the given id is pending and
the child emits exactly one response bearing that id, then after the
reader has processed the whole emission list — in whatever order the
child chose — the waiter for that id reads exactly that response. -/
theorem deliver_unique (s : VMServer) (rs : List Response) (id : Nat)
    (r : Response) (hpend : (s.poll.lookup id).isSome = true)
    (hu : rs.filter (fun x => x.id == id) = [r]) :
    (runReader s rs).communicateResult id = some r := by
  induction rs generalizing s with
  | nil => simp at hu
  | cons a rest ih =>
    rw [List.filter_cons] at hu
    by_cases ha : (a.id == id) = true
    · have haid : a.id = id := eq_of_beq ha
      simp only [ha, if_true] at hu
      obtain ⟨har, hrest⟩ : a = r ∧ rest.filter (fun x => x.id == id) = [] := by
        constructor
        · exact (List.cons_eq_cons.mp hu).1
        · exact (List.cons_eq_cons.mp hu).2
      subst har
      have hstep : (s.deliver a).poll.lookup id =
          some (⟨true, some a⟩ : PendingCall) := by
        show (pollSetEntries s.poll a).lookup id = _
        rw [lookup_pollSetEntries, if_pos haid.symm]
        obtain ⟨pc, hpc⟩ := Option.isSome_iff_exists.mp hpend
        simp [hpc]
      have hrun : (runReader (s.deliver a) rest).poll.lookup id =
          (s.deliver a).poll.lookup id :=
        runReader_lookup_of_filter_nil _ _ _ hrest
      show (runReader (s.deliver a) rest).communicateResult id = some a
      unfold VMServer.communicateResult
      rw [hrun, hstep]
      rfl
    · simp only [ha, Bool.false_eq_true, if_false] at hu
      have hne : ¬id = a.id := fun he => ha (by simp [he])
      have hstep : (s.deliver a).poll.lookup id = s.poll.lookup id := by
        show (pollSetEntries s.poll a).lookup id = _
        rw [lookup_pollSetEntries, if_neg hne]
      have hpend' : ((s.deliver a).poll.lookup id).isSome = true := by
        rw [hstep]; exact hpend
      exact ih (s.deliver a) hpend' hu

/-- Waking every pending waiter sets each slot's signal and leaves the
stored responses untouched. -/
theorem lookup_wakeAll (l : List (Nat × PendingCall)) (id : Nat) :
    (wakeAll l).lookup id =
      (l.lookup id).map fun pc => (⟨true, pc.response⟩ : PendingCall) := by
  induction l with
  | nil => rfl
  | cons a t ih =>
    obtain ⟨k, pc⟩ := a
    show List.lookup id ((k, (⟨true, pc.response⟩ : PendingCall)) :: wakeAll t) = _
    rw [lookup_cons_eq_if, lookup_cons_eq_if]
    by_cases hid : id = k <;> simp [hid, ih]

/-- After `del self.poll[id]` the table no longer has an entry for that
id. -/
theorem lookup_finish_none (l : List (Nat × PendingCall)) (id : Nat) :
    (l.filter fun p => !(p.1 == id)).lookup id = Option.none := by
  induction l with
  | nil => rfl
  | cons a t ih =>
    obtain ⟨k, pc⟩ := a
    by_cases hk : k = id
    · subst hk
      simp [List.filter_cons, ih]
    · have hb : (k == id) = false := beq_eq_false_iff_ne.mpr hk
      rw [List.filter_cons]
      simp only [hb, Bool.not_false, if_true]
      rw [lookup_cons_eq_if, if_neg (fun h => hk h.symm)]
      exact ih

/-- Ids stamped by successive calls form the interval starting at the
current counter value. -/
theorem stampSeq_fst (s : VMServer) (n : Nat) :
    (stampSeq s n).1 = List.range' s.inc n := by
  induction n generalizing s with
  | zero => rfl
  | succ n ih =>
    show s.inc :: (stampSeq (s.registerCall).2 n).1 = List.range' s.inc (n + 1)
    rw [ih]
    rfl

/-- Validation of a mapping whose first entries already validated
reduces to validation of the remaining entries. -/
theorem validate_append (pre l : List (String × PyVal))
    (h : validatePermissions pre = Except.ok ()) :
    validatePermissions (pre ++ l) = validatePermissions l := by
  induction pre with
  | nil => rfl
  | cons a t ih =>
    obtain ⟨k, v⟩ := a
    cases v with
    | list xs =>
      by_cases hall : xs.all isStr = true
      · simp only [validatePermissions, hall, if_true] at h
        show validatePermissions ((k, PyVal.list xs) :: (t ++ l)) = _
        simp only [validatePermissions, hall, if_true]
        exact ih h
      · simp [validatePermissions, hall] at h
    | str s₁ => simp [validatePermissions] at h
    | bool b₁ => simp [validatePermissions] at h
    | int n₁ => simp [validatePermissions] at h
    | none => simp [validatePermissions] at h

/-- Taking characters up to the first `=` of `l ++ '=' :: r` recovers
`l` when `l` itself has no `=`. -/
theorem takeWhile_until_eqchar (l r : List Char)
    (h : l.all (fun ch => ch != '=') = true) :
    (l ++ '=' :: r).takeWhile (fun ch => ch != '=') = l := by
  induction l with
  | nil => simp [List.takeWhile_cons]
  | cons a t ih =>
    rw [List.all_cons, Bool.and_eq_true] at h
    simp only [List.cons_append, List.takeWhile_cons, h.1, if_true]
    rw [ih h.2]

/-- Two `=`-free strings followed by `=` that stand in a prefix relation
are equal: the `=` acts as an unambiguous terminator. -/
theorem eq_of_prefix_eqchar (l₁ l₂ r : List Char)
    (h₁ : l₁.all (fun ch => ch != '=') = true)
    (h₂ : l₂.all (fun ch => ch != '=') = true)
    (hpre : l₁ ++ ['='] <+: l₂ ++ '=' :: r) : l₁ = l₂ := by
  obtain ⟨t, ht⟩ := hpre
  have hflat : l₁ ++ '=' :: t = l₂ ++ '=' :: r := by
    simpa [List.append_assoc] using ht
  calc l₁ = (l₁ ++ '=' :: t).takeWhile (fun ch => ch != '=') :=
        (takeWhile_until_eqchar l₁ t h₁).symm
    _ = (l₂ ++ '=' :: r).takeWhile (fun ch => ch != '=') := by rw [hflat]
    _ = l₂ := takeWhile_until_eqchar l₂ r h₂

/-- None of the eight permission categories contains an `=`. -/
theorem permission_types_no_eqchar :
    PERMISSION_TYPES.all (fun c => c.data.all (fun ch => ch != '=')) = true := by
  decide

/-- A flag built for one `=`-free category is never an extension of the
flag head of a different `=`-free category. -/
theorem allow_flag_not_prefix (c c' : String)
    (hc : c.data.all (fun ch => ch != '=') = true)
    (hc' : c'.data.all (fun ch => ch != '=') = true)
    (hne : c ≠ c') (tail : String) :
    ¬ ("--allow-" ++ c ++ "=").data <+:
      ("--allow-" ++ c' ++ "=" ++ tail).data := by
  intro h
  have h' : "--allow-".data ++ (c.data ++ ['=']) <+:
      "--allow-".data ++ (c'.data ++ '=' :: tail.data) := by
    simpa [String.data_append, List.append_assoc] using h
  have h'' := (List.prefix_append_right_inj _).mp h'
  exact hne (String.ext (eq_of_prefix_eqchar _ _ _ hc hc' h''))

/-- Python's `k in perms` agrees with a successful lookup. -/
theorem containsKey_eq_isSome_lookup (perms : List (String × PyVal))
    (k : String) :
    containsKey perms k = (perms.lookup k).isSome := by
  induction perms with
  | nil => rfl
  | cons a t ih =>
    obtain ⟨k', v⟩ := a
    show (k' == k || containsKey t k) = _
    rw [lookup_cons_eq_if]
    by_cases he : k = k'
    · subst he; simp
    · have h1 : (k' == k) = false := beq_eq_false_iff_ne.mpr (Ne.symm he)
      simp [h1, he, ih]

/-- Counting occurrences in a mapped list counts preimages. -/
theorem count_map_countP (f : String → String) (l : List String) (x : String) :
    (l.map f).count x = l.countP fun a => f a == x := by
  induction l with
  | nil => rfl
  | cons a t ih => simp [List.count_cons, List.countP_cons, ih]

/-- Removing an association-list entry with a different key changes
neither `in` nor the lookup. -/
theorem containsKey_filter_ne (perms : List (String × PyVal)) (k c : String)
    (hne : c ≠ k) :
    containsKey (perms.filter fun p => !(p.1 == k)) c =
      containsKey perms c := by
  induction perms with
  | nil => rfl
  | cons a t ih =>
    obtain ⟨k', v⟩ := a
    rw [List.filter_cons]
    by_cases hk : k' = k
    · subst hk
      simp only [beq_self_eq_true, Bool.not_true, Bool.false_eq_true, if_false]
      have hcons : containsKey ((k', v) :: t) c = (k' == c || containsKey t c) :=
        rfl
      have h1 : (k' == c) = false := beq_eq_false_iff_ne.mpr (fun h => hne h.symm)
      rw [hcons, h1, Bool.false_or, ih]
    · have hb : (k' == k) = false := beq_eq_false_iff_ne.mpr hk
      simp only [hb, Bool.not_false, if_true]
      show (k' == c || containsKey (t.filter fun p => !(p.1 == k)) c) =
        (k' == c || containsKey t c)
      rw [ih]

/-- Lookup companion of `containsKey_filter_ne`. -/
theorem lookup_filter_ne (perms : List (String × PyVal)) (k c : String)
    (hne : c ≠ k) :
    (perms.filter fun p => !(p.1 == k)).lookup c = perms.lookup c := by
  induction perms with
  | nil => rfl
  | cons a t ih =>
    obtain ⟨k', v⟩ := a
    rw [List.filter_cons]
    by_cases hk : k' = k
    · subst hk
      simp only [beq_self_eq_true, Bool.not_true, Bool.false_eq_true, if_false]
      rw [lookup_cons_eq_if, if_neg hne]
      exact ih
    · have hb : (k' == k) = false := beq_eq_false_iff_ne.mpr hk
      simp only [hb, Bool.not_false, if_true]
      rw [lookup_cons_eq_if, lookup_cons_eq_if, ih]

/-- Appending an event rewrites exactly the registered handle with the
given id, pushing the event at the back of its queue. -/
theorem lookup_putEvent (vms : List (Nat × BaseVM)) (id : Nat) (e : EventMsg) :
    (putEvent vms id e).lookup id =
      (vms.lookup id).map fun vm =>
        { vm with event_que := vm.event_que ++ [e] } := by
  induction vms with
  | nil => rfl
  | cons a t ih =>
    obtain ⟨k, vm⟩ := a
    have hhead : (if (k == id) = true then
        (k, { vm with event_que := vm.event_que ++ [e] }) else (k, vm)) =
        (k, if k = id then { vm with event_que := vm.event_que ++ [e] }
          else vm) := by
      by_cases hk : k = id <;> simp [hk]
    simp only [putEvent, List.map_cons]
    rw [hhead, lookup_cons_eq_if, lookup_cons_eq_if]
    by_cases hk : id = k
    · subst hk; simp
    · rw [if_neg hk, if_neg hk]
      exact ih

/-- Lookup under `dictGet` ignores removed entries with another key. -/
theorem dictGet_filter_ne (perms : List (String × PyVal)) (k c : String)
    (hne : c ≠ k) :
    dictGet (perms.filter fun p => !(p.1 == k)) c = dictGet perms c := by
  unfold dictGet
  rw [lookup_filter_ne perms k c hne]

/-- The eight permission categories are pairwise distinct. -/
theorem permission_types_nodup : PERMISSION_TYPES.Nodup := by decide

/-- C9: calling `close()` on an already-closed bridge returns without
effect: the state is unchanged, no error is raised, and no second
shutdown request is written to the child. -/
theorem close_idempotent (s : VMServer) (h : s.closed = some true) :
    VMServer.close s = (s, []) := by
  simp [VMServer.close, h]

/-- Witness for C9 at the concrete already-closed server. -/
theorem close_idempotent_witness :
    sClosedEx.closed = some true ∧ VMServer.close sClosedEx = (sClosedEx, []) :=
  ⟨rfl, close_idempotent sClosedEx rfl⟩

/-- C4: a session whose id is `None` rejects every action other than
`create` with the `VMError("VM is not created yet.")` before any request
reaches the bridge (empty request trace), and a destroyed session (id
cleared by `destroy`) communicates exactly like an uninitialized one
whatever its other fields hold. -/
theorem not_created_rejected (vm : BaseVM) (action : String)
    (bridge : String → Option Nat → Option Response)
    (hid : vm.id = Option.none) (hact : action ≠ "create") :
    BaseVM.communicate vm action bridge =
        (Except.error (PyErr.vmError "VM is not created yet."), [])
      ∧ ∀ (vm' : BaseVM) (c : String) (q : List EventMsg) (a : String)
          (b' : String → Option Nat → Option Response),
          BaseVM.communicate (BaseVM.destroy vm') a b' =
            BaseVM.communicate ⟨Option.none, c, q⟩ a b' := by
  constructor
  · unfold BaseVM.communicate
    rw [if_pos ⟨hid, hact⟩]
  · intro vm' c q a b'
    rfl

/-- Witness for C4: a fresh never-created session refuses `run`. -/
theorem not_created_rejected_witness :
    (BaseVM.mk Option.none "off" []).id = Option.none
    ∧ ("run" : String) ≠ "create"
    ∧ BaseVM.communicate ⟨Option.none, "off", []⟩ "run" (fun _ _ => Option.none) =
        (Except.error (PyErr.vmError "VM is not created yet."), []) :=
  ⟨rfl, by decide,
   (not_created_rejected ⟨Option.none, "off", []⟩ "run" (fun _ _ => Option.none)
     rfl (by decide)).1⟩

/-- C3: the ids stamped on requests by successive `communicate` calls of
one server are `1, 2, 3, …`: they start at 1, are strictly increasing,
never repeat, and a pending entry is deleted from the table once its
response is consumed, so no table key is reused. -/
theorem request_ids_monotone_and_unreused (n : Nat) :
    (stampSeq VMServer.init n).1 = List.range' 1 n
    ∧ List.Pairwise (· < ·) (stampSeq VMServer.init n).1
    ∧ (stampSeq VMServer.init n).1.Nodup
    ∧ ∀ (s : VMServer) (id : Nat),
        ((s.finishCall id).2).poll.lookup id = Option.none := by
  have h1 : (stampSeq VMServer.init n).1 = List.range' 1 n := stampSeq_fst _ n
  refine ⟨h1, ?_, ?_, ?_⟩
  · rw [h1]; exact List.pairwise_lt_range' 1 n
  · rw [h1]
    exact (List.pairwise_lt_range' 1 n).imp (fun h => Nat.ne_of_lt h)
  · intro s id
    exact lookup_finish_none s.poll id

/-- A lookup that succeeds on the front part of an appended association
list ignores the appended tail. -/
theorem lookup_append_left_of_isSome {α : Type} (l₁ l₂ : List (Nat × α))
    (k : Nat) (h : (l₁.lookup k).isSome = true) :
    (l₁ ++ l₂).lookup k = l₁.lookup k := by
  induction l₁ with
  | nil => simp at h
  | cons a t ih =>
    obtain ⟨k', v⟩ := a
    rw [List.cons_append, lookup_cons_eq_if, lookup_cons_eq_if]
    by_cases hk : k = k'
    · simp [hk]
    · rw [if_neg hk, if_neg hk]
      rw [lookup_cons_eq_if, if_neg hk] at h
      exact ih h

/-- C5 counterexample: when the child's stdout closes at a line boundary
(the reader's `for` loop simply runs out of lines), the reader thread
returns without even attempting `close()` — whether or not the child is
dead — and the bridge stays non-Closed, contradicting the claim that an
unexpected stream close transitions the bridge to Closed. -/
theorem reader_eof_counterexample :
    readerLoop true bEx [] = ReaderExit.eof bEx
    ∧ readerLoop false bEx [] = ReaderExit.eof bEx
    ∧ bEx.server.closed = some false
    ∧ bEx.server.closed ≠ some true :=
  ⟨rfl, rfl, rfl, by decide⟩

/-- C5 amended: a malformed line makes the reader call `self.close()`
and abandon the loop, the remaining stream unread, and no pending
caller's slot receives the parse error in any case.  The close call
itself completes only when the child is already dead, so that writing
the close request raises the swallowed `OSError`: then the bridge ends
up Closed and every pending waiter is woken with its absent response.
With a live child the write succeeds and the reader blocks forever in
`event.wait()` on the close response that only it could deliver: the
bridge is never marked Closed and the pending slots — signals unset,
responses absent — are left exactly as they were, their callers
hanging.  A stream that merely ends (EOF) terminates the loop with the
bridge state untouched and no close attempted. -/
theorem reader_malformed_close_outcome (b : Bridge) (raw : String)
    (rest : List Line) :
    (∀ d, readerLoop d b (Line.malformed raw :: rest) =
        readerLoop d b [Line.malformed raw])
    ∧ (∀ d, readerLoop d b [] = ReaderExit.eof b)
    ∧ (b.server.closed ≠ some true →
        readerLoop true b (Line.malformed raw :: rest) =
          ReaderExit.closeReturned
            { b with server := b.server.closeAfterWriteFail }
        ∧ b.server.closeAfterWriteFail.closed = some true
        ∧ (∀ id sig, b.server.poll.lookup id =
              some (⟨sig, Option.none⟩ : PendingCall) →
            b.server.closeAfterWriteFail.poll.lookup id =
              some (⟨true, Option.none⟩ : PendingCall))
        ∧ ∀ id, (b.server.poll.lookup id).isSome = true →
            b.server.closeAfterWriteFail.communicateResult id =
              b.server.communicateResult id)
    ∧ (b.server.closed ≠ some true →
        readerLoop false b (Line.malformed raw :: rest) =
          ReaderExit.stuckInClose
            { b with server := (b.server.registerCall).2 }
        ∧ ((b.server.registerCall).2).closed = b.server.closed
        ∧ ∀ id, (b.server.poll.lookup id).isSome = true →
            ((b.server.registerCall).2).poll.lookup id =
              b.server.poll.lookup id)
    ∧ (b.server.closed = some true →
        readerLoop true b (Line.malformed raw :: rest) =
          ReaderExit.closeReturned b
        ∧ readerLoop false b (Line.malformed raw :: rest) =
          ReaderExit.closeReturned b) := by
  refine ⟨fun d => rfl, fun d => rfl, ?_, ?_, ?_⟩
  · intro hnc
    have hcfr : b.server.closeFromReader true =
        ReaderCloseResult.returned b.server.closeAfterWriteFail := by
      unfold VMServer.closeFromReader
      rw [if_neg hnc]
      rfl
    refine ⟨?_, rfl, ?_, ?_⟩
    · show (match b.server.closeFromReader true with
        | .returned s => ReaderExit.closeReturned { b with server := s }
        | .blocked s => ReaderExit.stuckInClose { b with server := s }) = _
      rw [hcfr]
    · intro id sig hlk
      show (wakeAll (b.server.poll ++
          [(b.server.inc, ⟨false, Option.none⟩)])).lookup id = _
      rw [lookup_wakeAll,
        lookup_append_left_of_isSome _ _ _ (by rw [hlk]; rfl), hlk]
      rfl
    · intro id hsome
      obtain ⟨pc, hpc⟩ := Option.isSome_iff_exists.mp hsome
      have h1 : b.server.closeAfterWriteFail.poll.lookup id =
          some (⟨true, pc.response⟩ : PendingCall) := by
        show (wakeAll (b.server.poll ++
            [(b.server.inc, ⟨false, Option.none⟩)])).lookup id = _
        rw [lookup_wakeAll, lookup_append_left_of_isSome _ _ _ hsome, hpc]
        rfl
      unfold VMServer.communicateResult
      rw [h1, hpc]
      rfl
  · intro hnc
    have hcfr : b.server.closeFromReader false =
        ReaderCloseResult.blocked (b.server.registerCall).2 := by
      unfold VMServer.closeFromReader
      rw [if_neg hnc]
      rfl
    refine ⟨?_, rfl, ?_⟩
    · show (match b.server.closeFromReader false with
        | .returned s => ReaderExit.closeReturned { b with server := s }
        | .blocked s => ReaderExit.stuckInClose { b with server := s }) = _
      rw [hcfr]
    · intro id hsome
      show (b.server.poll ++
          [(b.server.inc, (⟨false, Option.none⟩ : PendingCall))]).lookup id = _
      exact lookup_append_left_of_isSome _ _ _ hsome
  · intro hcl
    have h1 : b.server.closeFromReader true =
        ReaderCloseResult.returned b.server := by
      unfold VMServer.closeFromReader
      rw [if_pos hcl]
    have h2 : b.server.closeFromReader false =
        ReaderCloseResult.returned b.server := by
      unfold VMServer.closeFromReader
      rw [if_pos hcl]
    constructor
    · show (match b.server.closeFromReader true with
        | .returned s => ReaderExit.closeReturned { b with server := s }
        | .blocked s => ReaderExit.stuckInClose { b with server := s }) = _
      rw [h1]
    · show (match b.server.closeFromReader false with
        | .returned s => ReaderExit.closeReturned { b with server := s }
        | .blocked s => ReaderExit.stuckInClose { b with server := s }) = _
      rw [h2]

/-- Witness for the amended C5 at the concrete bridge: with a live child
the reader ends up stuck inside `close()` and the bridge stays
non-Closed; with a dead child the close completes and the bridge is
Closed. -/
theorem reader_malformed_close_outcome_witness :
    bEx.server.closed ≠ some true
    ∧ readerLoop false bEx [Line.malformed "oops"] =
        ReaderExit.stuckInClose
          { bEx with server := (bEx.server.registerCall).2 }
    ∧ ((bEx.server.registerCall).2).closed = some false
    ∧ readerLoop true bEx [Line.malformed "oops"] =
        ReaderExit.closeReturned
          { bEx with server := bEx.server.closeAfterWriteFail }
    ∧ bEx.server.closeAfterWriteFail.closed = some true :=
  ⟨by decide,
   ((reader_malformed_close_outcome bEx "oops" []).2.2.2.1 (by decide)).1,
   rfl,
   ((reader_malformed_close_outcome bEx "oops" []).2.2.1 (by decide)).1,
   ((reader_malformed_close_outcome bEx "oops" []).2.2.1 (by decide)).2.1⟩

/-- C2 counterexample: with call 1 pending, closing the bridge wakes the
waiter with an absent response, and `VMServer.communicate` returns that
`None` as a normal value — not an error; the `BaseVM` layer then fails
with a `TypeError` from subscripting `None`, not with the bridge's
`VMError` class, so no ServerClosed-style error is surfaced. -/
theorem close_pending_counterexample :
    (VMServer.close sPend).1.poll.lookup 1 =
        some (⟨true, Option.none⟩ : PendingCall)
    ∧ (VMServer.close sPend).1.communicateResult 1 = Option.none
    ∧ isVMErr (handleResponse ((VMServer.close sPend).1.communicateResult 1)) =
        false
    ∧ handleResponse ((VMServer.close sPend).1.communicateResult 1) =
        Except.error
          (PyErr.typeError "\x27NoneType\x27 object is not subscriptable") :=
  ⟨rfl, rfl, rfl, rfl⟩

/-- C2 amended: every call pending at the moment `close()` runs is woken
(signal set), finds its response absent, has `VMServer.communicate`
return `None` as a normal value, and a caller going through
`BaseVM.communicate` then hits a `TypeError` — not a dedicated
ServerClosed error. -/
theorem close_pending_absent_response (s : VMServer) (id : Nat) (sig : Bool)
    (hnc : s.closed ≠ some true)
    (hpend : s.poll.lookup id = some ⟨sig, Option.none⟩) :
    (VMServer.close s).1.poll.lookup id =
        some (⟨true, Option.none⟩ : PendingCall)
    ∧ (VMServer.close s).1.communicateResult id = Option.none
    ∧ handleResponse ((VMServer.close s).1.communicateResult id) =
        Except.error
          (PyErr.typeError "\x27NoneType\x27 object is not subscriptable") := by
  have hlk : (VMServer.close s).1.poll.lookup id =
      some (⟨true, Option.none⟩ : PendingCall) := by
    unfold VMServer.close
    rw [if_neg hnc]
    show (wakeAll s.poll).lookup id = _
    rw [lookup_wakeAll, hpend]
    rfl
  have hcr : (VMServer.close s).1.communicateResult id = Option.none := by
    unfold VMServer.communicateResult
    rw [hlk]
    rfl
  exact ⟨hlk, hcr, by rw [hcr]; rfl⟩

/-- Witness for the amended C2 at pending call 2 of the concrete
server. -/
theorem close_pending_absent_response_witness :
    sPend.closed ≠ some true
    ∧ sPend.poll.lookup 2 = some (⟨false, Option.none⟩ : PendingCall)
    ∧ (VMServer.close sPend).1.communicateResult 2 = Option.none :=
  ⟨by decide, rfl,
   (close_pending_absent_response sPend 2 false (by decide) rfl).2.1⟩

/-- C6: event routing in the reader.  An event whose `vmId` has no
registered session is dropped silently; with a registered session,
`consoleMode = "off"` discards the event, `"redirect"` appends it at the
back of that session's queue, and `"inherit"` writes the value plus a
newline to process-wide stdout for `console.log` and stderr for
`console.error`. -/
theorem event_dispatch_modes (b : Bridge) (e : EventMsg) :
    (b.vms.lookup e.vmId = Option.none → dispatchEvent b e = b)
    ∧ (∀ vm, b.vms.lookup e.vmId = some vm → vm.console = "off" →
        dispatchEvent b e = b)
    ∧ (∀ vm, b.vms.lookup e.vmId = some vm → vm.console = "redirect" →
        (e.name = "console.log" ∨ e.name = "console.error") →
        dispatchEvent b e = { b with vms := putEvent b.vms e.vmId e }
        ∧ (putEvent b.vms e.vmId e).lookup e.vmId =
            some { vm with event_que := vm.event_que ++ [e] })
    ∧ (∀ vm, b.vms.lookup e.vmId = some vm → vm.console = "inherit" →
        e.name = "console.log" →
        dispatchEvent b e =
          { b with stdoutData := b.stdoutData ++ (e.value.getD "") ++ "\n" })
    ∧ (∀ vm, b.vms.lookup e.vmId = some vm → vm.console = "inherit" →
        e.name = "console.error" →
        dispatchEvent b e =
          { b with stderrData := b.stderrData ++ (e.value.getD "") ++ "\n" }) := by
  refine ⟨?_, ?_, ?_, ?_, ?_⟩
  · intro h
    unfold dispatchEvent
    rw [h]
  · intro vm hlk hcon
    unfold dispatchEvent
    rw [hlk]
    simp [hcon]
  · intro vm hlk hcon hname
    refine ⟨?_, ?_⟩
    · unfold dispatchEvent
      rw [hlk]
      rcases hname with h | h <;> simp [hcon, h]
    · rw [lookup_putEvent, hlk]
      rfl
  · intro vm hlk hcon hname
    unfold dispatchEvent
    rw [hlk]
    simp [hcon, hname]
  · intro vm hlk hcon hname
    unfold dispatchEvent
    rw [hlk]
    simp [hcon, hname]

/-- Witness for C6: the concrete redirect-mode session receives the
concrete `console.log` event in its queue. -/
theorem event_dispatch_modes_witness :
    bEx.vms.lookup evEx.vmId =
        some { id := some 5, console := "redirect", event_que := [] }
    ∧ ({ id := some 5, console := "redirect",
         event_que := ([] : List EventMsg) } : BaseVM).console = "redirect"
    ∧ (evEx.name = "console.log" ∨ evEx.name = "console.error")
    ∧ dispatchEvent bEx evEx = { bEx with vms := putEvent bEx.vms evEx.vmId evEx } :=
  ⟨rfl, rfl, Or.inl rfl,
   (((event_dispatch_modes bEx evEx).2.2.1)
     { id := some 5, console := "redirect", event_que := [] }
     rfl rfl (Or.inl rfl)).1⟩

/-- C7: a permission value that is not a list fails validation with the
message naming the offending category and the actual Python type
encountered; a list holding a non-string element fails with the message
naming the category.  The earlier entries of the mapping must themselves
be valid for the iteration to reach the offending entry. -/
theorem invalid_permission_message (pre rest : List (String × PyVal))
    (k : String) (v : PyVal)
    (hpre : validatePermissions pre = Except.ok ()) :
    (isListVal v = false →
      validatePermissions (pre ++ (k, v) :: rest) =
        Except.error ("Invalid value type for " ++ k ++ ": " ++ typeName v ++
          ". It should be a list of strings")
      ∧ k.data <:+:
          ("Invalid value type for " ++ k ++ ": " ++ typeName v ++
            ". It should be a list of strings").data
      ∧ (typeName v).data <:+:
          ("Invalid value type for " ++ k ++ ": " ++ typeName v ++
            ". It should be a list of strings").data)
    ∧ (∀ xs, v = PyVal.list xs → xs.all isStr = false →
        validatePermissions (pre ++ (k, v) :: rest) =
          Except.error ("List values must be strings for " ++ k ++ ".")
        ∧ k.data <:+: ("List values must be strings for " ++ k ++ ".").data) := by
  have hstep := validate_append pre ((k, v) :: rest) hpre
  constructor
  · intro hv
    refine ⟨?_, ?_, ?_⟩
    · rw [hstep]
      cases v with
      | list xs => simp [isListVal] at hv
      | str s₁ => rfl
      | bool b₁ => rfl
      | int n₁ => rfl
      | none => rfl
    · exact ⟨"Invalid value type for ".data,
        (": " ++ typeName v ++ ". It should be a list of strings").data,
        by simp [String.data_append, List.append_assoc]⟩
    · exact ⟨("Invalid value type for " ++ k ++ ": ").data,
        ". It should be a list of strings".data,
        by simp [String.data_append, List.append_assoc]⟩
  · intro xs hxs hall
    subst hxs
    refine ⟨?_, ?_⟩
    · rw [hstep]
      show (if xs.all isStr then validatePermissions rest else _) = _
      rw [hall]
      rfl
    · exact ⟨"List values must be strings for ".data, ".".data,
        by simp [String.data_append, List.append_assoc]⟩

/-- Witness for C7: `{"net": "not-a-list"}` fails naming `net` and the
string type; `{"net": ["ok", True]}` fails naming `net`. -/
theorem invalid_permission_message_witness :
    validatePermissions ([] : List (String × PyVal)) = Except.ok ()
    ∧ isListVal (PyVal.str "not-a-list") = false
    ∧ validatePermissions [("net", PyVal.str "not-a-list")] =
        Except.error ("Invalid value type for " ++ "net" ++ ": " ++
          typeName (PyVal.str "not-a-list") ++
          ". It should be a list of strings")
    ∧ validatePermissions
        [("net", PyVal.list [PyVal.str "ok", PyVal.bool true])] =
        Except.error ("List values must be strings for " ++ "net" ++ ".") :=
  ⟨rfl, rfl,
   ((invalid_permission_message [] [] "net" (PyVal.str "not-a-list") rfl).1
     rfl).1,
   ((invalid_permission_message [] [] "net"
       (PyVal.list [PyVal.str "ok", PyVal.bool true]) rfl).2
     [PyVal.str "ok", PyVal.bool true] rfl rfl).1⟩

/-- C10: a key outside the fixed category set is still validated like
any other entry — a non-list value fails with the usual typed message,
and a valid list of strings passes — but the flag construction consults
only the fixed categories, so a valid unknown key contributes nothing:
removing it from the mapping leaves the launch flags unchanged. -/
theorem unknown_category_validated_but_ignored (k : String)
    (hk : k ∉ PERMISSION_TYPES) :
    (∀ pre rest v, validatePermissions pre = Except.ok () →
        isListVal v = false →
        validatePermissions (pre ++ (k, v) :: rest) =
          Except.error ("Invalid value type for " ++ k ++ ": " ++ typeName v ++
            ". It should be a list of strings"))
    ∧ (∀ pre rest (vs : List String),
        validatePermissions pre = Except.ok () →
        validatePermissions
            (pre ++ (k, PyVal.list (vs.map PyVal.str)) :: rest) =
          validatePermissions rest)
    ∧ (∀ perms, cliPermissions perms =
        cliPermissions (perms.filter fun p => !(p.1 == k))) := by
  have hne : ∀ c ∈ PERMISSION_TYPES, c ≠ k := fun c hc he => hk (he ▸ hc)
  refine ⟨?_, ?_, ?_⟩
  · intro pre rest v hpre hv
    rw [validate_append pre ((k, v) :: rest) hpre]
    cases v with
    | list xs => simp [isListVal] at hv
    | str s₁ => rfl
    | bool b₁ => rfl
    | int n₁ => rfl
    | none => rfl
  · intro pre rest vs hpre
    rw [validate_append pre _ hpre]
    show (if (vs.map PyVal.str).all isStr then validatePermissions rest
      else _) = _
    have hall : (vs.map PyVal.str).all isStr = true := by
      rw [List.all_eq_true]
      intro x hx
      obtain ⟨a, _, rfl⟩ := List.mem_map.mp hx
      rfl
    rw [hall]
    rfl
  · intro perms
    refine Eq.symm ?_
    calc cliPermissions (perms.filter fun p => !(p.1 == k))
        = (PERMISSION_TYPES.filter fun c => containsKey perms c).map
            (fun c => "--allow-" ++ c ++ "=" ++
              pyJoinComma (dictGet (perms.filter fun p => !(p.1 == k)) c)) := by
          unfold cliPermissions
          rw [List.filter_congr
            (fun c hc => containsKey_filter_ne perms k c (hne c hc))]
      _ = cliPermissions perms := by
          unfold cliPermissions
          exact List.map_congr_left fun c hc => by
            rw [dictGet_filter_ne perms k c
              (hne c (List.mem_of_mem_filter hc))]

/-- Witness for C10: the unknown key `foo` passes validation and its
removal leaves the flag list unchanged. -/
theorem unknown_category_validated_but_ignored_witness :
    ("foo" ∉ PERMISSION_TYPES)
    ∧ validatePermissions permsUnknownEx = Except.ok ()
    ∧ cliPermissions permsUnknownEx =
        cliPermissions (permsUnknownEx.filter fun p => !(p.1 == "foo")) :=
  ⟨by decide, rfl,
   (unknown_category_validated_but_ignored "foo" (by decide)).2.2
     permsUnknownEx⟩

/-- Counting a target in a filtered-then-mapped duplicate-free list:
the unique source element that is kept and maps to the target accounts
for exactly one occurrence. -/
theorem count_map_filter_eq_one (l : List String) (hnd : l.Nodup)
    (q : String → Bool) (F : String → String) (c : String) (hmem : c ∈ l)
    (hqc : q c = true) (target : String) (hFc : F c = target)
    (hother : ∀ a ∈ l, a ≠ c → F a ≠ target) :
    ((l.filter q).map F).count target = 1 := by
  induction l with
  | nil => simp at hmem
  | cons a t ih =>
    have hnd' : a ∉ t ∧ t.Nodup := by
      rw [List.nodup_cons] at hnd; exact hnd
    rcases List.mem_cons.mp hmem with hca | hct
    · subst hca
      rw [List.filter_cons, if_pos hqc, List.map_cons, List.count_cons]
      have hzero : ((t.filter q).map F).count target = 0 := by
        rw [List.count_eq_zero]
        intro hmem'
        obtain ⟨b, hb, hFb⟩ := List.mem_map.mp hmem'
        exact hother b (List.mem_cons_of_mem c (List.mem_of_mem_filter hb))
          (fun he => hnd'.1 (he ▸ List.mem_of_mem_filter hb)) hFb
      rw [hzero, hFc]
      simp
    · have hac : a ≠ c := fun he => hnd'.1 (he ▸ hct)
      have hrest : ((t.filter q).map F).count target = 1 :=
        ih hnd'.2 hct (fun b hb => hother b (List.mem_cons_of_mem a hb))
      rw [List.filter_cons]
      by_cases hqa : q a = true
      · rw [if_pos hqa, List.map_cons, List.count_cons, hrest]
        have : (F a == target) = false :=
          beq_eq_false_iff_ne.mpr (hother a (List.mem_cons_self a t) hac)
        rw [this]
        simp
      · rw [if_neg hqa]
        exact hrest

/-- C8: for a valid permission mapping, each fixed category present in
the mapping yields exactly one launch flag, of the exact form
`--allow-<category>=<comma-joined scopes>` with the scope strings passed
through unmodified, and an absent category yields no flag at all — no
emitted flag even starts with that category's flag head. -/
theorem permission_flags_exactly_present (perms : List (String × PyVal))
    (hval : validatePermissions perms = Except.ok ())
    (c : String) (hc : c ∈ PERMISSION_TYPES) :
    (∀ vs : List String,
        perms.lookup c = some (PyVal.list (vs.map PyVal.str)) →
        (cliPermissions perms).count
            ("--allow-" ++ c ++ "=" ++ String.intercalate "," vs) = 1)
    ∧ (perms.lookup c = Option.none →
        ∀ f, f ∈ cliPermissions perms →
          ¬ ("--allow-" ++ c ++ "=").data <+: f.data) := by
  have hnoeq : ∀ c' ∈ PERMISSION_TYPES,
      c'.data.all (fun ch => ch != '=') = true :=
    fun c' hc' => List.all_eq_true.mp permission_types_no_eqchar c' hc'
  constructor
  · intro vs hlk
    have hget : dictGet perms c = PyVal.list (vs.map PyVal.str) := by
      unfold dictGet; rw [hlk]
    have hmapstr : (vs.map PyVal.str).map strOf = vs := by
      rw [List.map_map]
      calc vs.map (strOf ∘ PyVal.str) = vs.map id :=
            List.map_congr_left fun a _ => rfl
        _ = vs := List.map_id vs
    have hFc : "--allow-" ++ c ++ "=" ++ pyJoinComma (dictGet perms c) =
        "--allow-" ++ c ++ "=" ++ String.intercalate "," vs := by
      rw [hget]
      show _ ++ String.intercalate "," ((vs.map PyVal.str).map strOf) = _
      rw [hmapstr]
    have hqc : containsKey perms c = true := by
      rw [containsKey_eq_isSome_lookup, hlk]; rfl
    have hother : ∀ a ∈ PERMISSION_TYPES, a ≠ c →
        ("--allow-" ++ a ++ "=" ++ pyJoinComma (dictGet perms a)) ≠
          ("--allow-" ++ c ++ "=" ++ String.intercalate "," vs) := by
      intro a haP hac he
      apply allow_flag_not_prefix c a (hnoeq c hc) (hnoeq a haP)
        (fun h' => hac h'.symm) (pyJoinComma (dictGet perms a))
      rw [he]
      exact ⟨(String.intercalate "," vs).data,
        by simp [String.data_append, List.append_assoc]⟩
    unfold cliPermissions
    exact count_map_filter_eq_one PERMISSION_TYPES permission_types_nodup
      (fun p => containsKey perms p)
      (fun p => "--allow-" ++ p ++ "=" ++ pyJoinComma (dictGet perms p))
      c hc hqc _ hFc hother
  · intro hnone f hf
    unfold cliPermissions at hf
    obtain ⟨c', hc'mem, hfc'⟩ := List.mem_map.mp hf
    have hc'P : c' ∈ PERMISSION_TYPES := List.mem_of_mem_filter hc'mem
    have hc'present : containsKey perms c' = true :=
      (List.mem_filter.mp hc'mem).2
    have hne : c ≠ c' := by
      intro he
      subst he
      rw [containsKey_eq_isSome_lookup, hnone] at hc'present
      simp at hc'present
    rw [← hfc']
    exact allow_flag_not_prefix c c' (hnoeq c hc) (hnoeq c' hc'P) hne
      (pyJoinComma (dictGet perms c'))

/-- Witness for C8: the mapping granting two net scopes produces exactly
one `--allow-net` flag joining them with a comma. -/
theorem permission_flags_exactly_present_witness :
    validatePermissions permsNetEx = Except.ok ()
    ∧ ("net" : String) ∈ PERMISSION_TYPES
    ∧ permsNetEx.lookup "net" =
        some (PyVal.list ((["a.com", "b.com"] : List String).map PyVal.str))
    ∧ (cliPermissions permsNetEx).count
        ("--allow-" ++ "net" ++ "=" ++
          String.intercalate "," ["a.com", "b.com"]) = 1 :=
  ⟨rfl, by decide, rfl,
   (permission_flags_exactly_present permsNetEx rfl "net" (by decide)).1
     ["a.com", "b.com"] rfl⟩

/-- C1: with a call pending under some id and the child emitting exactly
one response bearing that id, the waiter for that id reads exactly that
response once the reader has processed the child's whole output — and
the same holds for every reordering of the child's emissions, so
delivery depends only on the id correlation, not on emission order.
Quantifying over the pending table covers arbitrarily many concurrent
callers: each holds its own id and its own slot. -/
theorem response_correlated_by_id (s : VMServer) (rs : List Response)
    (id : Nat) (r : Response)
    (hpend : (s.poll.lookup id).isSome = true)
    (hu : rs.filter (fun x => x.id == id) = [r]) :
    (runReader s rs).communicateResult id = some r
    ∧ ∀ rs', rs.Perm rs' →
        (runReader s rs').communicateResult id = some r := by
  refine ⟨deliver_unique s rs id r hpend hu, fun rs' hp => ?_⟩
  refine deliver_unique s rs' id r hpend ?_
  have hpf := hp.filter (fun x => x.id == id)
  rw [hu] at hpf
  exact List.perm_singleton.mp hpf.symm

/-- Witness for C1: two calls pending, the child answers in reversed
order, and caller 1 still reads response 1. -/
theorem response_correlated_by_id_witness :
    (sPend.poll.lookup 1).isSome = true
    ∧ rsEx.filter (fun x => x.id == 1) = [r1Ex]
    ∧ (runReader sPend rsEx).communicateResult 1 = some r1Ex :=
  ⟨rfl, rfl, (response_correlated_by_id sPend rsEx 1 r1Ex rfl rfl).1⟩

end DenoVM
